import Mathlib

/-!
Verification of the PTX IR visualizer (src/visualizer.py).

The source defines a class `Visualizer` with three methods:
  - `create_instruction_graph(ptx_data, kernel_name)` builds a networkx
    directed graph: one node per instruction (attribute `label` set to the
    string `f"{idx}: {ins[opcode]} {ins[operands]}"`), and a chain of edges
    `(i, i+1)` for `i in range(len(instructions) - 1)`.
  - `render_graph` delegates to an external drawing library (I/O, out of
    scope of this development).
  - `text_report(diff_report)` accumulates a list of marked-up lines and
    joins them with newline characters.

We embed the data model and the two pure operations below.  Python
dictionaries appear as association lists in insertion order; the Python
exception raised on a missing key appears as the `none` branch of an
`Option` result; the string primitives `str.split` and `str.startswith`
are embedded as executable functions on the character lists underlying
Lean strings, matching the Python semantics for a one-character separator.
-/

/-- An instruction record: `opcode` (string) and `operands`
(sequence of strings), as consumed by the graph builder. -/
structure Instruction where
  opcode : String
  operands : List String
deriving Repr, DecidableEq

/-- Kernel data as looked up in `ptx_data`: an ordered
sequence of instructions. -/
structure KernelData where
  instructions : List Instruction
deriving Repr, DecidableEq

/-- Python dictionary lookup `m[k]` on an association list in insertion
order: the first binding of the key, `none` when the key is absent
(Python raises `KeyError` there). -/
def dictGet {α : Type} : List (String × α) → String → Option α
  | [], _ => none
  | p :: rest, k => if p.1 == k then some p.2 else dictGet rest k

/-- Python `repr` of a string value, for strings that contain no
characters that `repr` would escape: the text between two single
quotation marks. -/
def pyStrRepr (s : String) : String :=
  "\x27" ++ s ++ "\x27"

/-- Python `str` of a list of strings (the default string form of the
`operands` container used by the f-string in the source): bracketed,
comma-separated `repr`s of the elements. -/
def pyListRepr (l : List String) : String :=
  "[" ++ String.intercalate ", " (l.map pyStrRepr) ++ "]"

/-- The node label built in the source:
`f"\x7bidx\x7d: \x7bins[opcode]\x7d \x7bins[operands]\x7d"`. -/
def nodeLabel (idx : Nat) (ins : Instruction) : String :=
  Nat.repr idx ++ ": " ++ ins.opcode ++ " " ++ pyListRepr ins.operands

/-- A networkx-style directed graph: nodes in insertion order, each
carrying an optional `label` attribute, and directed edges in insertion
order. -/
structure DiGraph where
  nodes : List (Nat × Option String)
  edges : List (Nat × Nat)
deriving Repr, DecidableEq

/-- `nx.DiGraph()`. -/
def DiGraph.empty : DiGraph := ⟨[], []⟩

/-- Whether the graph already has a node with this identity. -/
def DiGraph.hasNode (g : DiGraph) (i : Nat) : Bool :=
  g.nodes.any (fun p => p.1 == i)

/-- `G.add_node(i, label=l)`: a fresh node is appended; adding an existing
node updates its attributes in place. -/
def DiGraph.add_node (g : DiGraph) (i : Nat) (l : String) : DiGraph :=
  if g.hasNode i then
    ⟨g.nodes.map (fun p => if p.1 == i then (i, some l) else p), g.edges⟩
  else
    ⟨g.nodes ++ [(i, some l)], g.edges⟩

/-- `G.add_edge(i, j)`: missing endpoints are added as attribute-free
nodes, then the edge is appended unless already present. -/
def DiGraph.add_edge (g : DiGraph) (i j : Nat) : DiGraph :=
  let g1 : DiGraph := if g.hasNode i then g else ⟨g.nodes ++ [(i, none)], g.edges⟩
  let g2 : DiGraph := if g1.hasNode j then g1 else ⟨g1.nodes ++ [(j, none)], g1.edges⟩
  if g2.edges.any (fun p => p.1 == i && p.2 == j) then g2
  else ⟨g2.nodes, g2.edges ++ [(i, j)]⟩

/-- `Visualizer.create_instruction_graph(ptx_data, kernel_name)`:
looks up the kernel (a missing key surfaces as `none`), adds one node per
instruction in enumeration order with its formatted label, then adds the
chain edges `(i, i + 1)` for `i in range(len(instructions) - 1)`. -/
def create_instruction_graph (ptx_data : List (String × KernelData))
    (kernel_name : String) : Option DiGraph :=
  match dictGet ptx_data kernel_name with
  | none => none
  | some kd =>
    let instructions := kd.instructions
    let G0 := DiGraph.empty
    let G1 := instructions.enum.foldl
      (fun G p => G.add_node p.1 (nodeLabel p.1 p.2)) G0
    let G2 := (List.range (instructions.length - 1)).foldl
      (fun G i => G.add_edge i (i + 1)) G1
    some G2

/-- The per-kernel change record consumed by `text_report`: the
`instruction_diff` field, a multi-line text blob. -/
structure ChangeRecord where
  instruction_diff : String
deriving Repr, DecidableEq

/-- The diff report consumed by `text_report`: new kernel names, removed
kernel names, and the changed kernels in mapping/insertion order. -/
structure DiffReport where
  new_kernels : List String
  removed_kernels : List String
  changed_kernels : List (String × ChangeRecord)
deriving Repr, DecidableEq

/-- Python single-character `str.split` on a character list: splitting the
empty text yields one empty segment, and every occurrence of the
separator closes the current segment and opens a new one (so a trailing
separator yields a trailing empty segment). -/
def pySplitChars (sep : Char) : List Char → List (List Char)
  | [] => [[]]
  | c :: cs =>
    match pySplitChars sep cs with
    | [] => [[]]
    | seg :: segs =>
      if c = sep then [] :: seg :: segs else (c :: seg) :: segs

/-- Python `s.split(sep)` for a one-character separator. -/
def pySplit (s : String) (sep : Char) : List String :=
  (pySplitChars sep s.data).map String.mk

/-- Python `s.startswith(p)`. -/
def pyStartsWith (s p : String) : Bool :=
  p.data.isPrefixOf s.data

/-- The newline character, the separator used by
`changes["instruction_diff"].split("\n")` in the source. -/
def newlineChar : Char := Char.ofNat 10

/-- `Visualizer.text_report`, before the final join: the list `lines`
accumulated by the source in emission order.  The source appends the
added-kernels summary when `new_kernels` is truthy, the removed-kernels
summary when `removed_kernels` is truthy, then for each changed kernel a
heading followed by one classified line per segment of the split
`instruction_diff`. -/
def text_report_lines (diff_report : DiffReport) : List String :=
  let lines : List String := []
  let lines := if diff_report.new_kernels.isEmpty then lines else
    lines ++ ["<span class=\x27added\x27>New Kernels Found: " ++
      String.intercalate ", " diff_report.new_kernels ++ "</span>"]
  let lines := if diff_report.removed_kernels.isEmpty then lines else
    lines ++ ["<span class=\x27removed\x27>Removed Kernels: " ++
      String.intercalate ", " diff_report.removed_kernels ++ "</span>"]
  diff_report.changed_kernels.foldl
    (fun lines kc =>
      let lines := lines ++ ["<h3>Changes in " ++ kc.1 ++ ":</h3>"]
      let diff_lines := pySplit kc.2.instruction_diff newlineChar
      diff_lines.foldl
        (fun lines line =>
          if pyStartsWith line "+" then
            lines ++ ["<span class=\x27added\x27>" ++ line ++ "</span>"]
          else if pyStartsWith line "-" then
            lines ++ ["<span class=\x27removed\x27>" ++ line ++ "</span>"]
          else
            lines ++ ["<span class=\x27line-number\x27>" ++ line ++ "</span>"])
        lines)
    lines

/-- `Visualizer.text_report(diff_report)`: the accumulated lines joined
with newline characters. -/
def text_report (diff_report : DiffReport) : String :=
  String.intercalate "\n" (text_report_lines diff_report)

/-! Specification-side descriptions, used to state the refinement claims
about `text_report`. -/

/-- The three-way classification of one diff line stated by the spec:
prefix `+` is wrapped in the added style, prefix `-` in the removed
style, anything else in the line-number (context) style. -/
def classifyLine (line : String) : String :=
  if pyStartsWith line "+" then
    "<span class=\x27added\x27>" ++ line ++ "</span>"
  else if pyStartsWith line "-" then
    "<span class=\x27removed\x27>" ++ line ++ "</span>"
  else
    "<span class=\x27line-number\x27>" ++ line ++ "</span>"

/-- The block of lines the spec prescribes for one changed kernel: a
heading naming the kernel, then one classified line per newline-split
segment of its `instruction_diff`. -/
def kernelBlock (kc : String × ChangeRecord) : List String :=
  ("<h3>Changes in " ++ kc.1 ++ ":</h3>") ::
    (pySplit kc.2.instruction_diff newlineChar).map classifyLine

/-- The added-kernels summary line the spec prescribes: the added style
wrapping the comma-joined new kernel names. -/
def addedSummary (d : DiffReport) : String :=
  "<span class=\x27added\x27>New Kernels Found: " ++
    String.intercalate ", " d.new_kernels ++ "</span>"

/-- The removed-kernels summary line the spec prescribes: the removed
style wrapping the comma-joined removed kernel names. -/
def removedSummary (d : DiffReport) : String :=
  "<span class=\x27removed\x27>Removed Kernels: " ++
    String.intercalate ", " d.removed_kernels ++ "</span>"

/-- The full emission order the spec prescribes for `text_report`: the
optional added summary, the optional removed summary, then the kernel
blocks in mapping order. -/
def text_report_spec_lines (d : DiffReport) : List String :=
  (if d.new_kernels.isEmpty then [] else [addedSummary d]) ++
  (if d.removed_kernels.isEmpty then [] else [removedSummary d]) ++
  d.changed_kernels.flatMap kernelBlock

section FoldLemmas

/-- Folding an accumulator-append step is the same as appending the
map of the step function. -/
lemma foldl_append_singleton {α β : Type} (g : α → β) (l : List α)
    (acc : List β) :
    l.foldl (fun acc x => acc ++ [g x]) acc = acc ++ l.map g := by
  induction l generalizing acc with
  | nil => simp
  | cons x xs ih => simp [ih]

/-- Folding an accumulator-append-block step is the same as appending the
flattened blocks. -/
lemma foldl_append_bind {α β : Type} (g : α → List β) (l : List α)
    (acc : List β) :
    l.foldl (fun acc x => acc ++ g x) acc = acc ++ l.flatMap g := by
  induction l generalizing acc with
  | nil => simp
  | cons x xs ih => simp [ih]

/-- One step of the inner classification loop of the source appends
exactly the spec classification of the line. -/
lemma inner_step_eq (lines : List String) (line : String) :
    (if pyStartsWith line "+" then
      lines ++ ["<span class=\x27added\x27>" ++ line ++ "</span>"]
    else if pyStartsWith line "-" then
      lines ++ ["<span class=\x27removed\x27>" ++ line ++ "</span>"]
    else
      lines ++ ["<span class=\x27line-number\x27>" ++ line ++ "</span>"]) =
    lines ++ [classifyLine line] := by
  unfold classifyLine
  split <;> simp_all
  split <;> simp_all

/-- The accumulated lines of the source equal the emission order
prescribed by the spec. -/
lemma text_report_lines_eq (d : DiffReport) :
    text_report_lines d = text_report_spec_lines d := by
  unfold text_report_lines text_report_spec_lines
  have hstep : ∀ (lines : List String) (kc : String × ChangeRecord),
      (let lines2 := lines ++ ["<h3>Changes in " ++ kc.1 ++ ":</h3>"]
       let diff_lines := pySplit kc.2.instruction_diff newlineChar
       diff_lines.foldl
        (fun lines line =>
          if pyStartsWith line "+" then
            lines ++ ["<span class=\x27added\x27>" ++ line ++ "</span>"]
          else if pyStartsWith line "-" then
            lines ++ ["<span class=\x27removed\x27>" ++ line ++ "</span>"]
          else
            lines ++ ["<span class=\x27line-number\x27>" ++ line ++ "</span>"])
        lines2) = lines ++ kernelBlock kc := by
    intro lines kc
    have hinner := foldl_append_singleton classifyLine
      (pySplit kc.2.instruction_diff newlineChar)
      (lines ++ ["<h3>Changes in " ++ kc.1 ++ ":</h3>"])
    simp only [inner_step_eq]
    rw [hinner]
    simp [kernelBlock]
  simp only [hstep]
  rw [foldl_append_bind]
  by_cases h1 : d.new_kernels.isEmpty <;>
    by_cases h2 : d.removed_kernels.isEmpty <;>
      simp [h1, h2, addedSummary, removedSummary]

end FoldLemmas

section GraphLemmas

/-- A graph has node j exactly when some inserted node has identity j. -/
lemma hasNode_iff (g : DiGraph) (j : Nat) :
    g.hasNode j = true ↔ ∃ p ∈ g.nodes, p.1 = j := by
  simp [DiGraph.hasNode, List.any_eq_true]

/-- Folding `add_node` over an enumeration starting above every existing
node identity appends exactly one labeled node per instruction, in
enumeration order, and leaves the edges unchanged. -/
lemma foldl_add_node_enumFrom (l : List Instruction) (k : Nat) (g : DiGraph)
    (hg : ∀ p ∈ g.nodes, p.1 < k) :
    (l.enumFrom k).foldl (fun G p => G.add_node p.1 (nodeLabel p.1 p.2)) g =
      ⟨g.nodes ++ (l.enumFrom k).map (fun p => (p.1, some (nodeLabel p.1 p.2))),
       g.edges⟩ := by
  induction l generalizing k g with
  | nil => simp
  | cons i tl ih =>
    rw [List.enumFrom_cons, List.foldl_cons]
    have hfresh : g.hasNode k = false := by
      rw [Bool.eq_false_iff]
      intro hcontra
      obtain ⟨p, hp, hpk⟩ := (hasNode_iff g k).mp hcontra
      exact absurd hpk (Nat.ne_of_lt (hg p hp))
    have hstep : g.add_node k (nodeLabel k i) =
        ⟨g.nodes ++ [(k, some (nodeLabel k i))], g.edges⟩ := by
      unfold DiGraph.add_node
      rw [hfresh]
      simp
    rw [hstep]
    rw [ih (k + 1) ⟨g.nodes ++ [(k, some (nodeLabel k i))], g.edges⟩ ?_]
    · simp [List.enumFrom_cons]
    · intro p hp
      rcases List.mem_append.mp hp with hold | hnew
      · exact Nat.lt_succ_of_lt (hg p hold)
      · simp only [List.mem_singleton] at hnew
        rw [hnew]
        exact Nat.lt_succ_self k

/-- Folding `add_edge` over `range m` on a graph that has every node
identity up to m and no edges yet appends exactly the chain edges
(i, i + 1) in order and leaves the nodes unchanged. -/
lemma foldl_add_edge_range (m : Nat) (g : DiGraph) (hE : g.edges = [])
    (hn : ∀ i, i < m → g.hasNode i = true ∧ g.hasNode (i + 1) = true) :
    (List.range m).foldl (fun G i => G.add_edge i (i + 1)) g =
      ⟨g.nodes, (List.range m).map (fun i => (i, i + 1))⟩ := by
  induction m with
  | zero =>
    cases g
    simp_all
  | succ m ih =>
    rw [List.range_succ, List.foldl_append]
    rw [ih (fun i hi => hn i (Nat.lt_succ_of_lt hi))]
    have hm1 : g.hasNode m = true := (hn m (Nat.lt_succ_self m)).1
    have hm2 : g.hasNode (m + 1) = true := (hn m (Nat.lt_succ_self m)).2
    have hkeep1 : (DiGraph.mk g.nodes
        ((List.range m).map (fun i => (i, i + 1)))).hasNode m = true := hm1
    have hkeep2 : (DiGraph.mk g.nodes
        ((List.range m).map (fun i => (i, i + 1)))).hasNode (m + 1) = true := hm2
    have hnew : ((List.range m).map (fun i => (i, i + 1))).any
        (fun p => p.1 == m && p.2 == m + 1) = false := by
      rw [Bool.eq_false_iff]
      intro hcontra
      obtain ⟨p, hp, hpm⟩ := List.any_eq_true.mp hcontra
      obtain ⟨i, hi, hpi⟩ := List.mem_map.mp hp
      rw [← hpi] at hpm
      simp only [Bool.and_eq_true, beq_iff_eq] at hpm
      exact absurd hpm.1 (Nat.ne_of_lt (List.mem_range.mp hi))
    simp only [List.foldl_cons, List.foldl_nil, DiGraph.add_edge, hkeep1,
      hkeep2, if_true, hnew, Bool.false_eq_true, if_false]
    simp [List.map_append]

/-- The graph built from an instruction list: labeled nodes in
enumeration order and the chain edges. -/
lemma graph_build_eq (l : List Instruction) :
    (List.range (l.length - 1)).foldl (fun G i => G.add_edge i (i + 1))
      (l.enum.foldl (fun G p => G.add_node p.1 (nodeLabel p.1 p.2))
        DiGraph.empty) =
      ⟨l.enum.map (fun p => (p.1, some (nodeLabel p.1 p.2))),
       (List.range (l.length - 1)).map (fun i => (i, i + 1))⟩ := by
  have hnodes := foldl_add_node_enumFrom l 0 DiGraph.empty
    (by intro p hp; simp [DiGraph.empty] at hp)
  rw [List.enum_eq_enumFrom, hnodes]
  simp only [DiGraph.empty, List.nil_append]
  have hhas : ∀ j, j < l.length →
      (DiGraph.mk ((l.enumFrom 0).map
        (fun p => (p.1, some (nodeLabel p.1 p.2)))) []).hasNode j = true := by
    intro j hj
    rw [hasNode_iff]
    have hjfst : j ∈ (l.enumFrom 0).map Prod.fst := by
      rw [List.enumFrom_map_fst, ← List.range_eq_range']
      exact List.mem_range.mpr hj
    obtain ⟨p, hpmem, hpj⟩ := List.mem_map.mp hjfst
    exact ⟨(p.1, some (nodeLabel p.1 p.2)),
      List.mem_map_of_mem _ hpmem, hpj⟩
  rw [foldl_add_edge_range (l.length - 1) _ rfl ?_]
  intro i hi
  exact ⟨hhas i (by omega), hhas (i + 1) (by omega)⟩

/-- The closed form of `create_instruction_graph` on a present kernel. -/
lemma create_instruction_graph_eq (ptx_data : List (String × KernelData))
    (kernel_name : String) (kd : KernelData)
    (h : dictGet ptx_data kernel_name = some kd) :
    create_instruction_graph ptx_data kernel_name =
      some ⟨kd.instructions.enum.map (fun p => (p.1, some (nodeLabel p.1 p.2))),
            (List.range (kd.instructions.length - 1)).map
              (fun i => (i, i + 1))⟩ := by
  unfold create_instruction_graph
  rw [h]
  simp only [Option.some.injEq]
  exact graph_build_eq kd.instructions

end GraphLemmas

/-- Claim C9: on a diff report whose three fields are all empty,
`text_report` returns exactly the empty string. -/
theorem text_report_empty_report :
    text_report (DiffReport.mk [] [] []) = "" := by
  rfl

/-- Claim C6: on a diff report with `new_kernels = [k1]` and the other
fields empty, `text_report` emits exactly one line, the added-style
summary naming k1, and returns exactly that line. -/
theorem text_report_single_new_kernel :
    text_report_lines (DiffReport.mk ["k1"] [] []) =
      ["<span class=\x27added\x27>New Kernels Found: k1</span>"] ∧
    text_report (DiffReport.mk ["k1"] [] []) =
      "<span class=\x27added\x27>New Kernels Found: k1</span>" := by
  constructor <;> rfl

/-- Claim C7: on a diff report whose only content is the changed kernel
k1 with diff text `+add r1` / `-sub r2` / ` mov r3`, `text_report` emits
no summary lines, then the heading for k1, then exactly three lines
classified added, removed and line-number respectively. -/
theorem text_report_changed_kernel_example :
    text_report_lines (DiffReport.mk [] []
        [("k1", ChangeRecord.mk "+add r1\n-sub r2\n mov r3")]) =
      ["<h3>Changes in k1:</h3>",
       "<span class=\x27added\x27>+add r1</span>",
       "<span class=\x27removed\x27>-sub r2</span>",
       "<span class=\x27line-number\x27> mov r3</span>"] ∧
    text_report (DiffReport.mk [] []
        [("k1", ChangeRecord.mk "+add r1\n-sub r2\n mov r3")]) =
      "<h3>Changes in k1:</h3>\n" ++
      "<span class=\x27added\x27>+add r1</span>\n" ++
      "<span class=\x27removed\x27>-sub r2</span>\n" ++
      "<span class=\x27line-number\x27> mov r3</span>" := by
  constructor <;> rfl

/-- Claim C2: `text_report` returns the newline-join of exactly the lines
the spec prescribes, in the prescribed order: the added summary when
`new_kernels` is non-empty, the removed summary when `removed_kernels`
is non-empty, then for each changed kernel in mapping order a heading
followed by the three-way classification of each newline-split segment
of its `instruction_diff`. -/
theorem text_report_matches_spec (d : DiffReport) :
    text_report d = String.intercalate "\n" (text_report_spec_lines d) := by
  unfold text_report
  rw [text_report_lines_eq]

/-- Claim C1: on a present kernel with n instructions,
`create_instruction_graph` returns a graph with exactly n nodes and
max(0, n - 1) edges, the edges being exactly the pairs (i, i + 1), a
simple path that never branches (for n = 0: 0 nodes and 0 edges). -/
theorem create_instruction_graph_chain
    (ptx_data : List (String × KernelData)) (kernel_name : String)
    (kd : KernelData) (h : dictGet ptx_data kernel_name = some kd) :
    ∃ g, create_instruction_graph ptx_data kernel_name = some g ∧
      g.nodes.length = kd.instructions.length ∧
      g.edges.length = kd.instructions.length - 1 ∧
      g.edges = (List.range (kd.instructions.length - 1)).map
        (fun i => (i, i + 1)) := by
  refine ⟨_, create_instruction_graph_eq ptx_data kernel_name kd h, ?_, ?_, rfl⟩
  · simp
  · simp

/-- Witness for claim C1 at a concrete two-instruction kernel. -/
theorem create_instruction_graph_chain_witness :
    dictGet [("k", KernelData.mk [Instruction.mk "add" ["r1", "r2"],
        Instruction.mk "mov" ["r3"]])] "k" =
      some (KernelData.mk [Instruction.mk "add" ["r1", "r2"],
        Instruction.mk "mov" ["r3"]]) ∧
    (∃ g, create_instruction_graph
        [("k", KernelData.mk [Instruction.mk "add" ["r1", "r2"],
          Instruction.mk "mov" ["r3"]])] "k" = some g ∧
      g.nodes.length = (KernelData.mk [Instruction.mk "add" ["r1", "r2"],
        Instruction.mk "mov" ["r3"]]).instructions.length ∧
      g.edges.length = (KernelData.mk [Instruction.mk "add" ["r1", "r2"],
        Instruction.mk "mov" ["r3"]]).instructions.length - 1 ∧
      g.edges = (List.range ((KernelData.mk [Instruction.mk "add" ["r1", "r2"],
        Instruction.mk "mov" ["r3"]]).instructions.length - 1)).map
          (fun i => (i, i + 1))) :=
  ⟨by decide, create_instruction_graph_chain _ "k" _ (by decide)⟩

/-- A dictionary lookup of a key bound by no entry yields `none`. -/
lemma dictGet_eq_none {α : Type} (m : List (String × α)) (k : String)
    (h : ∀ p ∈ m, p.1 ≠ k) : dictGet m k = none := by
  induction m with
  | nil => rfl
  | cons p rest ih =>
    unfold dictGet
    rw [show (p.1 == k) = false from
      beq_eq_false_iff_ne.mpr (h p (List.mem_cons_self p rest))]
    simp only [Bool.false_eq_true, if_false]
    exact ih (fun q hq => h q (List.mem_cons_of_mem p hq))

/-- Claim C3: on a kernel name bound by no entry of the mapping,
`create_instruction_graph` surfaces the missing-key failure directly
(the `none` result of the embedded lookup) and produces no graph. -/
theorem create_instruction_graph_missing_kernel
    (ptx_data : List (String × KernelData)) (kernel_name : String)
    (h : ∀ p ∈ ptx_data, p.1 ≠ kernel_name) :
    create_instruction_graph ptx_data kernel_name = none := by
  unfold create_instruction_graph
  rw [dictGet_eq_none ptx_data kernel_name h]

/-- Witness for claim C3 at a concrete absent kernel name. -/
theorem create_instruction_graph_missing_kernel_witness :
    (∀ p ∈ [("k", KernelData.mk [])], p.1 ≠ "absent") ∧
    create_instruction_graph [("k", KernelData.mk [])] "absent" = none :=
  ⟨by decide, create_instruction_graph_missing_kernel _ "absent" (by decide)⟩

/-- Claim C5: on a present kernel, nodes are added deterministically in
instruction order with no deduplication, and the node with identity i is
labeled with the index, the opcode and the default string form of the
operands container. -/
theorem create_instruction_graph_node_label
    (ptx_data : List (String × KernelData)) (kernel_name : String)
    (kd : KernelData) (h : dictGet ptx_data kernel_name = some kd)
    (i : Nat) (hi : i < kd.instructions.length) :
    ∃ g, create_instruction_graph ptx_data kernel_name = some g ∧
      g.nodes = kd.instructions.enum.map
        (fun p => (p.1, some (nodeLabel p.1 p.2))) ∧
      g.nodes[i]? = (kd.instructions[i]?).map
        (fun ins => (i, some (Nat.repr i ++ ": " ++ ins.opcode ++ " " ++
          pyListRepr ins.operands))) := by
  refine ⟨_, create_instruction_graph_eq ptx_data kernel_name kd h, rfl, ?_⟩
  rw [List.getElem?_map, List.enum_eq_enumFrom, List.getElem?_enumFrom]
  rw [List.getElem?_eq_getElem hi]
  simp [nodeLabel]

/-- Witness for claim C5 at index 0 of a concrete kernel. -/
theorem create_instruction_graph_node_label_witness :
    dictGet [("k", KernelData.mk [Instruction.mk "add" ["r1", "r2"]])] "k" =
      some (KernelData.mk [Instruction.mk "add" ["r1", "r2"]]) ∧
    0 < (KernelData.mk [Instruction.mk "add" ["r1", "r2"]]).instructions.length ∧
    (∃ g, create_instruction_graph
        [("k", KernelData.mk [Instruction.mk "add" ["r1", "r2"]])] "k" =
          some g ∧
      g.nodes = (KernelData.mk
        [Instruction.mk "add" ["r1", "r2"]]).instructions.enum.map
          (fun p => (p.1, some (nodeLabel p.1 p.2))) ∧
      g.nodes[0]? = ((KernelData.mk
          [Instruction.mk "add" ["r1", "r2"]]).instructions[0]?).map
        (fun ins => (0, some (Nat.repr 0 ++ ": " ++ ins.opcode ++ " " ++
          pyListRepr ins.operands)))) :=
  ⟨by decide, by decide,
    create_instruction_graph_node_label _ "k" _ (by decide) 0 (by decide)⟩

/-- Claim C4: empty diff segments (including the empty trailing segment
produced when the diff text ends with a newline) take the else branch of
the classification, are wrapped in the line-number style, and are still
emitted among the accumulated report lines. -/
theorem text_report_empty_segment_emitted (d : DiffReport) (k : String)
    (c : ChangeRecord) (hmem : (k, c) ∈ d.changed_kernels)
    (s : String) (hs : s ∈ pySplit c.instruction_diff newlineChar)
    (hempty : s = "") :
    classifyLine s = "<span class=\x27line-number\x27></span>" ∧
    "<span class=\x27line-number\x27></span>" ∈ text_report_lines d := by
  have hclass : classifyLine s = "<span class=\x27line-number\x27></span>" := by
    rw [hempty]
    rfl
  refine ⟨hclass, ?_⟩
  rw [text_report_lines_eq]
  unfold text_report_spec_lines
  have hblock : "<span class=\x27line-number\x27></span>" ∈
      d.changed_kernels.flatMap kernelBlock := by
    rw [List.mem_flatMap]
    refine ⟨(k, c), hmem, ?_⟩
    unfold kernelBlock
    apply List.mem_cons_of_mem
    rw [← hclass]
    exact List.mem_map_of_mem classifyLine hs
  exact List.mem_append.mpr (Or.inr hblock)

/-- Witness for claim C4 on a diff text ending with a newline. -/
theorem text_report_empty_segment_emitted_witness :
    ("k1", ChangeRecord.mk "+a\n") ∈
      (DiffReport.mk [] [] [("k1", ChangeRecord.mk "+a\n")]).changed_kernels ∧
    ("" : String) ∈
      pySplit (ChangeRecord.mk "+a\n").instruction_diff newlineChar ∧
    (classifyLine "" = "<span class=\x27line-number\x27></span>" ∧
     "<span class=\x27line-number\x27></span>" ∈
       text_report_lines (DiffReport.mk [] [] [("k1", ChangeRecord.mk "+a\n")])) :=
  ⟨by decide, by decide,
    text_report_empty_segment_emitted
      (DiffReport.mk [] [] [("k1", ChangeRecord.mk "+a\n")]) "k1"
      (ChangeRecord.mk "+a\n") (by decide) "" (by decide) rfl⟩

/-- Claim C10: the report embeds each diff segment verbatim: the block
for a changed kernel contributes exactly one output line per split
segment, in order, and every classified line is the original segment
text unchanged between an opening span tag of one of the three styles
and the closing tag, with its leading prefix character kept. -/
theorem text_report_segment_verbatim (d : DiffReport) (k : String)
    (c : ChangeRecord) (hmem : (k, c) ∈ d.changed_kernels) (line : String) :
    (∃ pre post, text_report_lines d =
      pre ++ (("<h3>Changes in " ++ k ++ ":</h3>") ::
        (pySplit c.instruction_diff newlineChar).map classifyLine) ++ post) ∧
    (∃ opening, (opening = "<span class=\x27added\x27>" ∨
        opening = "<span class=\x27removed\x27>" ∨
        opening = "<span class=\x27line-number\x27>") ∧
      classifyLine line = opening ++ line ++ "</span>") := by
  constructor
  · obtain ⟨l1, l2, hsplit⟩ := List.append_of_mem hmem
    refine ⟨(if d.new_kernels.isEmpty then [] else [addedSummary d]) ++
      (if d.removed_kernels.isEmpty then [] else [removedSummary d]) ++
      l1.flatMap kernelBlock, l2.flatMap kernelBlock, ?_⟩
    rw [text_report_lines_eq]
    unfold text_report_spec_lines
    rw [hsplit, List.flatMap_append, List.flatMap_cons]
    unfold kernelBlock
    simp [List.append_assoc]
  · by_cases h1 : pyStartsWith line "+" = true
    · exact ⟨_, Or.inl rfl, by simp [classifyLine, h1]⟩
    · by_cases h2 : pyStartsWith line "-" = true
      · exact ⟨_, Or.inr (Or.inl rfl), by simp [classifyLine, h1, h2]⟩
      · exact ⟨_, Or.inr (Or.inr rfl), by simp [classifyLine, h1, h2]⟩

/-- Witness for claim C10 at a concrete changed kernel and segment. -/
theorem text_report_segment_verbatim_witness :
    ("k1", ChangeRecord.mk "+a\n b") ∈
      (DiffReport.mk [] [] [("k1", ChangeRecord.mk "+a\n b")]).changed_kernels ∧
    ((∃ pre post,
      text_report_lines (DiffReport.mk [] [] [("k1", ChangeRecord.mk "+a\n b")]) =
        pre ++ (("<h3>Changes in " ++ "k1" ++ ":</h3>") ::
          (pySplit (ChangeRecord.mk "+a\n b").instruction_diff
            newlineChar).map classifyLine) ++ post) ∧
    (∃ opening, (opening = "<span class=\x27added\x27>" ∨
        opening = "<span class=\x27removed\x27>" ∨
        opening = "<span class=\x27line-number\x27>") ∧
      classifyLine "+a" = opening ++ "+a" ++ "</span>")) :=
  ⟨by decide,
    text_report_segment_verbatim
      (DiffReport.mk [] [] [("k1", ChangeRecord.mk "+a\n b")]) "k1"
      (ChangeRecord.mk "+a\n b") (by decide) "+a"⟩

/-- Claim C8: `text_report` is a deterministic function of the diff
report alone: equal inputs give identical output strings.  Side-effect
freedom holds by construction of the embedding: the source reads and
writes no state outside its argument, so it embeds as a total function. -/
theorem text_report_deterministic (d1 d2 : DiffReport) (h : d1 = d2) :
    text_report d1 = text_report d2 := by
  rw [h]

/-- Witness for claim C8 at a concrete diff report. -/
theorem text_report_deterministic_witness :
    DiffReport.mk ["k1"] ["k2"] [("k3", ChangeRecord.mk "+x")] =
      DiffReport.mk ["k1"] ["k2"] [("k3", ChangeRecord.mk "+x")] ∧
    text_report (DiffReport.mk ["k1"] ["k2"] [("k3", ChangeRecord.mk "+x")]) =
      text_report (DiffReport.mk ["k1"] ["k2"] [("k3", ChangeRecord.mk "+x")]) :=
  ⟨rfl, text_report_deterministic _ _ rfl⟩
